import Mathlib

/-!
Shallow embedding of the node-woz-main-controller protocol layer:
the command encoder and completion correlator of `src/mainController.js`
(both revisions of the file) and the odometry telemetry decoder of
`src/parsers/odometry.js`.  The external collaborators (the `cobs`
byte-stuffing package and the `robotlib` byte helpers) are not part of
the repository sources; they are modelled from the specification and
marked as such in their doc comments.
-/

namespace Woz

/-- Modelled from the spec: `robotlib.utils.math.numberToHex`, the missing
external helper used at every command call site.  Per §4.2 each argument is
"encoded as single unsigned bytes (0–255)", with magnitudes "clamped to
[0,255]"; the helper is therefore a clamp of an unsigned value to one byte. -/
def numberToHex (n : ℕ) : ℕ := min n 255

/-- The protocol start marker `requestStartFlag = 0xA3` from
`src/mainController.js` line 14. -/
def requestStartFlag : ℕ := 0xA3

/-- How a command call's returned value behaves:
`noHandle` — the function returns `undefined` (no pending promise);
`waitTarget` — it returns a promise resolved by the next `targetReached`
parser event; `timer ms` — it returns a promise resolved by a
`setTimeout` of `ms` milliseconds, independent of parser events. -/
inductive Completion where
  | noHandle : Completion
  | waitTarget : Completion
  | timer : ℕ → Completion
deriving DecidableEq, Repr

/-- Events emitted by the stream parser (`parser.on(...)` in
`src/mainController.js`). -/
inductive ParserEvent where
  | ready : ParserEvent
  | odometryEvent : ParserEvent
  | targetReached : ParserEvent
deriving DecidableEq, Repr

/-- Whether a command's returned handle is resolved once the given list of
parser events has been delivered.  A missing handle (`undefined`) awaits
nothing; a `setTimeout`-based promise resolves by time and never depends on
parser events; a `targetReached`-correlated promise is resolved exactly when
a `targetReached` event has arrived. -/
def resolvedAfter (c : Completion) (evs : List ParserEvent) : Bool :=
  match c with
  | Completion.noHandle => true
  | Completion.timer _ => true
  | Completion.waitTarget => evs.any (fun e => decide (e = ParserEvent.targetReached))

/-- The pair produced by one command call: the unstuffed frame handed to
`writeToSerialPort` and the completion behaviour of the returned value. -/
structure CommandResult where
  frame : List ℕ
  completion : Completion
deriving DecidableEq, Repr

/-- `forward(speed, distance)` from `src/mainController.js` lines 109–125:
writes `[0xA3, 0x10, speedByte, distanceByte]`; returns a `targetReached`
promise only when `distance` is truthy (nonzero). -/
def forward (speed distance : ℕ) : CommandResult :=
  { frame := [requestStartFlag, 0x10, numberToHex speed, numberToHex distance],
    completion := if distance = 0 then Completion.noHandle else Completion.waitTarget }

/-- `reverse(speed, distance)` from `src/mainController.js` lines 133–149:
writes `[0xA3, 0x11, speedByte, distanceByte]`; returns a `targetReached`
promise only when `distance` is truthy. -/
def reverse (speed distance : ℕ) : CommandResult :=
  { frame := [requestStartFlag, 0x11, numberToHex speed, numberToHex distance],
    completion := if distance = 0 then Completion.noHandle else Completion.waitTarget }

/-- `keepHeading(speed, heading, distance)` from `src/mainController.js`
lines 83–101: writes `[0xA3, 0x16, speedByte, headingByte, directionByte,
distanceByte]` with `directionByte = speed > 0 ? 1 : 0` and
`speedByte = hex(abs(speed))`; returns a `targetReached` promise only when
`distance` is truthy. -/
def keepHeading (speed : ℤ) (heading distance : ℕ) : CommandResult :=
  { frame := [requestStartFlag, 0x16, numberToHex speed.natAbs, numberToHex heading,
              numberToHex (if 0 < speed then 1 else 0), numberToHex distance],
    completion := if distance = 0 then Completion.noHandle else Completion.waitTarget }

/-- `rotate(speed, angle)` from `src/mainController.js` lines 157–172 (first
revision): writes `[0xA3, 0x12, speedByte, hex(abs(angle)),
hex(angle < 0 ? 1 : 0)]` and always returns a `targetReached` promise,
with no zero-angle shortcut. -/
def rotate (speed : ℕ) (angle : ℤ) : CommandResult :=
  { frame := [requestStartFlag, 0x12, numberToHex speed, numberToHex angle.natAbs,
              numberToHex (if angle < 0 then 1 else 0)],
    completion := Completion.waitTarget }

/-- `rotate(speed, angle)` from the second revision of
`src/mainController.js` (lines 374–389): identical except the direction
byte is `angle < 0 ? 0 : 1`. -/
def rotateV2 (speed : ℕ) (angle : ℤ) : CommandResult :=
  { frame := [requestStartFlag, 0x12, numberToHex speed, numberToHex angle.natAbs,
              numberToHex (if angle < 0 then 0 else 1)],
    completion := Completion.waitTarget }

/-- `turn(speed, angle, radius)` from `src/mainController.js` lines 181–197
(first revision): writes `[0xA3, 0x13, speedByte, hex(abs(angle)),
radiusByte, hex(angle < 0 ? 1 : 0)]` and always returns a `targetReached`
promise. -/
def turn (speed : ℕ) (angle : ℤ) (radius : ℕ) : CommandResult :=
  { frame := [requestStartFlag, 0x13, numberToHex speed, numberToHex angle.natAbs,
              numberToHex radius, numberToHex (if angle < 0 then 1 else 0)],
    completion := Completion.waitTarget }

/-- `drive(speedLeft, speedRight)` from `src/mainController.js` lines
204–209: writes `[0xA3, 0x14, speedLeftByte, speedRightByte]` and returns
`undefined`. -/
def drive (speedLeft speedRight : ℕ) : CommandResult :=
  { frame := [requestStartFlag, 0x14, numberToHex speedLeft, numberToHex speedRight],
    completion := Completion.noHandle }

/-- `stop(hard)` from `src/mainController.js` lines 216–221: writes
`[0xA3, 0x15, hex(hard)]` immediately and returns a promise resolved by
`setTimeout(resolve, hard ? 0 : 1000)`. -/
def stop (hard : ℕ) : CommandResult :=
  { frame := [requestStartFlag, 0x15, numberToHex hard],
    completion := Completion.timer (if hard = 0 then 1000 else 0) }

/-- `resetIMU()` from `src/mainController.js` lines 226–231 (first revision
only): writes `[0xA3, 0x20]` and resolves after a fixed 1000 ms timeout. -/
def resetIMU : CommandResult :=
  { frame := [requestStartFlag, 0x20],
    completion := Completion.timer 1000 }

/-- Modelled from the spec: `robotlib.utils.math.parseDecToBinary`, the
missing external helper used by `src/parsers/odometry.js` line 16.  Per
spec §4.4/§9 it renders a byte's decimal value as a binary digit string
(the JavaScript `(n).toString(2)` rendering, most significant digit first,
no leading-zero padding — §9 stresses the result is "NOT a straightforward
big-endian 16-bit integer", which rules out 8-digit zero padding).  Here
the digit string is a list of binary digits, most significant first. -/
def parseDecToBinary (n : ℕ) : List ℕ :=
  if n = 0 then [0] else (Nat.digits 2 n).reverse

/-- JavaScript `parseInt(s, 2)` on a digit string made of binary digits:
reinterpret the digit list (most significant first) as a base-2 integer. -/
def parseBinaryDigits (ds : List ℕ) : ℕ :=
  Nat.ofDigits 2 ds.reverse

/-- The value of a direction byte in the odometry decoder:
`data[i] || -1` in JavaScript, i.e. `-1` when the byte is `0` and the raw
byte value otherwise. -/
def dirValue (b : ℕ) : ℤ :=
  if b = 0 then -1 else (b : ℤ)

/-- The record returned by the odometry parser. -/
structure OdometryData where
  leftTicks : ℤ
  rightTicks : ℤ
  heading : ℚ
deriving DecidableEq, Repr

/-- The odometry telemetry decoder of `src/parsers/odometry.js`, applied to
a 6-byte payload `[leftDir, leftDeltaTicks, rightDir, rightDeltaTicks,
headingMsb, headingLsb]` (the six destructured array reads of lines
10–15). -/
def odometry (leftDir deltaLeft rightDir deltaRight msb lsb : ℕ) : OdometryData :=
  { leftTicks := (deltaLeft : ℤ) * dirValue leftDir,
    rightTicks := (deltaRight : ℤ) * dirValue rightDir,
    heading :=
      (parseBinaryDigits (parseDecToBinary msb ++ parseDecToBinary lsb) : ℚ) / 100 }

/-- State of the correlator: the list of `onTargetReached` listeners
currently attached to the parser (identified by the handle they resolve),
a fresh-id counter, and the list of resolution calls made so far (one
entry per `resolve()` invocation, carrying the handle id). -/
structure CorrState where
  listeners : List ℕ
  nextId : ℕ
  resolved : List ℕ
deriving DecidableEq, Repr

/-- Observable correlator steps: `issue` is a call to a distance/angle
bearing command (which attaches one `onTargetReached` listener for its
promise), `fire` is the parser emitting a `targetReached` event (each
attached listener detaches itself via `parser.off` and resolves its
promise once). -/
inductive Op where
  | issue : Op
  | fire : Op
deriving DecidableEq, Repr

/-- One correlator step, mirroring `parser.on('targetReached', ...)` /
`parser.off` in the command bodies of `src/mainController.js`. -/
def stepOp (s : CorrState) : Op → CorrState
  | Op.issue => ⟨s.listeners ++ [s.nextId], s.nextId + 1, s.resolved⟩
  | Op.fire => ⟨[], s.nextId, s.resolved ++ s.listeners⟩

/-- Run a list of correlator steps from a state. -/
def runOps (s : CorrState) : List Op → CorrState
  | [] => s
  | op :: ops => runOps (stepOp s op) ops

/-- The correlator's initial state: no listeners, no resolutions. -/
def initCorr : CorrState := ⟨[], 0, []⟩

/-- Invariant maintained by the correlator state. -/
def CorrInv (s : CorrState) : Prop :=
  s.listeners.Nodup ∧ s.resolved.Nodup ∧
  (∀ i ∈ s.listeners, i ∉ s.resolved) ∧
  (∀ i ∈ s.listeners, i < s.nextId) ∧
  (∀ i ∈ s.resolved, i < s.nextId)

/-- Connection state of the controller closure: the `port` and `parser`
variables of `src/mainController.js` (identified by a numeric instance id,
`none` when unassigned). -/
structure CtrlState where
  port : Option ℕ
  parser : Option ℕ
deriving DecidableEq, Repr

/-- Outcome of the promise returned by `init()`: `pendingReady` means it
stays pending until the parser's `ready` event resolves it; `rejected`
means `setTimeout(reject, 0)` was scheduled, so it rejects. -/
inductive InitResult where
  | pendingReady : InitResult
  | rejected : InitResult
deriving DecidableEq, Repr

/-- `init()` from `src/mainController.js` lines 28–48, evaluated on the
connection state: when `port` is already set the promise is rejected via
`setTimeout(reject, 0)`, but — there being no early return — the function
still unconditionally assigns a new `SerialPort` to `port` and a new
`Parser` to `parser` (the fresh instance ids given as arguments). -/
def init (s : CtrlState) (freshPort freshParser : ℕ) : InitResult × CtrlState :=
  ( if s.port.isSome then InitResult.rejected else InitResult.pendingReady,
    { port := some freshPort, parser := some freshParser } )

theorem corrInv_step (s : CorrState) (op : Op) (h : CorrInv s) : CorrInv (stepOp s op) := by
  obtain ⟨h1, h2, h3, h4, h5⟩ := h
  cases op with
  | issue =>
    have hnotin : s.nextId ∉ s.listeners := fun hmem => lt_irrefl _ (h4 _ hmem)
    refine ⟨?_, h2, ?_, ?_, ?_⟩
    · exact h1.append (List.nodup_singleton _)
        (by intro a ha hb; simp at hb; subst hb; exact hnotin ha)
    · intro i hi
      rcases List.mem_append.mp hi with hi | hi
      · exact h3 i hi
      · simp at hi; subst hi
        exact fun hmem => lt_irrefl _ (h5 _ hmem)
    · intro i hi
      rcases List.mem_append.mp hi with hi | hi
      · exact Nat.lt_succ_of_lt (h4 i hi)
      · simp at hi; subst hi; exact Nat.lt_succ_self _
    · intro i hi
      exact Nat.lt_succ_of_lt (h5 i hi)
  | fire =>
    refine ⟨List.nodup_nil, ?_, by simp [stepOp], by simp [stepOp], ?_⟩
    · exact h2.append h1 (fun a ha hb => h3 a hb ha)
    · intro i hi
      rcases List.mem_append.mp hi with hi | hi
      · exact h5 i hi
      · exact h4 i hi

theorem corrInv_runOps (ops : List Op) (s : CorrState) (h : CorrInv s) :
    CorrInv (runOps s ops) := by
  induction ops generalizing s with
  | nil => exact h
  | cons op ops ih => exact ih _ (corrInv_step s op h)

theorem runOps_append (s : CorrState) (l1 l2 : List Op) :
    runOps s (l1 ++ l2) = runOps (runOps s l1) l2 := by
  induction l1 generalizing s with
  | nil => rfl
  | cons op l1 ih => simp [runOps, ih]

/-- Modelled from the spec: the Frame Codec's encoder body.  The repository
delegates stuffing to the external `cobs` package
(`port.write(cobs.encode(Buffer.from(data), true))`,
`src/mainController.js` line 238), whose source is not part of this
repository.  Per spec §4.1 the codec is a self-synchronizing byte-stuffing
transform (COBS) keeping the reserved delimiter byte (`0`) out of the
encoded body: the payload is cut into blocks of up to 254 non-delimiter
bytes, each emitted as a length code (`block length + 1`, or `255` for a
full block) followed by the block, delimiter bytes being consumed as block
separators. -/
def cobsEncodeBody (xs : List ℕ) : List ℕ :=
  if h : 254 ≤ (xs.takeWhile fun x => x != 0).length then
    255 :: (xs.take 254 ++ cobsEncodeBody (xs.drop 254))
  else
    match hr : xs.dropWhile fun x => x != 0 with
    | [] => ((xs.takeWhile fun x => x != 0).length + 1) :: xs.takeWhile (fun x => x != 0)
    | _ :: r => ((xs.takeWhile fun x => x != 0).length + 1)
        :: (xs.takeWhile (fun x => x != 0) ++ cobsEncodeBody r)
termination_by xs.length
decreasing_by
  · have h1 := (List.takeWhile_sublist (l := xs) (fun x => x != 0)).length_le
    simp only [List.length_drop]
    omega
  · have h2 := congrArg List.length
      (List.takeWhile_append_dropWhile (p := fun x => x != 0) (l := xs))
    rw [hr] at h2
    simp only [List.length_append, List.length_cons] at h2
    omega

/-- Modelled from the spec: the Frame Codec's decoder body, the inverse of
`cobsEncodeBody`.  Reads a length code, copies the following
`code - 1` bytes, and re-inserts a delimiter byte after every block whose
code is below `255`; malformed input (a `0` code byte, or fewer bytes than
the code announces) yields `none` (`FrameError::Malformed`, spec §4.1). -/
def cobsDecodeBody (xs : List ℕ) : Option (List ℕ) :=
  match xs with
  | [] => none
  | code :: rest =>
    if code = 0 then none
    else if rest.length < code - 1 then none
    else
      match hr : rest.drop (code - 1) with
      | [] => some (rest.take (code - 1))
      | c :: r =>
        if code = 255 then
          Option.map (fun t => rest.take (code - 1) ++ t) (cobsDecodeBody (c :: r))
        else
          Option.map (fun t => rest.take (code - 1) ++ 0 :: t) (cobsDecodeBody (c :: r))
termination_by xs.length
decreasing_by
  all_goals
    have h1 := congrArg List.length hr
    simp only [List.length_drop, List.length_cons] at h1 ⊢
    omega

/-- Modelled from the spec: the full frame codec encode — the stuffed body
with the delimiter prepended and appended ("appends/prepends the delimiter
so receivers can find frame edges", spec §4.1; the `true` flag of
`cobs.encode` requests the zero-framed form). -/
def cobsEncode (p : List ℕ) : List ℕ := 0 :: (cobsEncodeBody p ++ [0])

/-- Modelled from the spec: the full frame codec decode — strips the
leading and trailing delimiter and unstuffs the body; anything not framed
by delimiters is malformed. -/
def cobsDecode (f : List ℕ) : Option (List ℕ) :=
  match f with
  | 0 :: rest => if rest.getLast? = some 0 then cobsDecodeBody rest.dropLast else none
  | _ => none

theorem dropWhile_head_not (p : ℕ → Bool) (xs : List ℕ) (c : ℕ) (r : List ℕ)
    (h : xs.dropWhile p = c :: r) : p c = false := by
  induction xs with
  | nil => simp [List.dropWhile] at h
  | cons a xs ih =>
    rw [List.dropWhile_cons] at h
    by_cases hp : p a
    · rw [if_pos hp] at h; exact ih h
    · rw [if_neg hp] at h
      injection h with h1 h2
      subst h1
      simpa using hp

theorem cobsEncodeBody_ne_nil (xs : List ℕ) : cobsEncodeBody xs ≠ [] := by
  rw [cobsEncodeBody]
  split
  · simp
  · split <;> simp

theorem cobsEncodeBody_case_full (xs : List ℕ)
    (h : 254 ≤ (xs.takeWhile fun x => x != 0).length) :
    cobsEncodeBody xs = 255 :: (xs.take 254 ++ cobsEncodeBody (xs.drop 254)) := by
  rw [cobsEncodeBody, dif_pos h]

theorem cobsEncodeBody_case_end (xs : List ℕ)
    (h : ¬254 ≤ (xs.takeWhile fun x => x != 0).length)
    (h2 : (xs.dropWhile fun x => x != 0) = []) :
    cobsEncodeBody xs
      = ((xs.takeWhile fun x => x != 0).length + 1) :: xs.takeWhile (fun x => x != 0) := by
  rw [cobsEncodeBody, dif_neg h]
  split
  · rfl
  · rename_i c r hr
    rw [h2] at hr
    simp at hr

theorem cobsEncodeBody_case_zero (xs : List ℕ)
    (h : ¬254 ≤ (xs.takeWhile fun x => x != 0).length)
    (c : ℕ) (r : List ℕ) (h2 : (xs.dropWhile fun x => x != 0) = c :: r) :
    cobsEncodeBody xs
      = ((xs.takeWhile fun x => x != 0).length + 1)
          :: (xs.takeWhile (fun x => x != 0) ++ cobsEncodeBody r) := by
  rw [cobsEncodeBody, dif_neg h]
  split
  · rename_i hr
    rw [h2] at hr
    simp at hr
  · rename_i c2 r2 hr
    rw [h2] at hr
    injection hr with e1 e2
    subst e2
    rfl

theorem cobsDecodeBody_final (b : List ℕ) :
    cobsDecodeBody ((b.length + 1) :: b) = some b := by
  rw [cobsDecodeBody]
  rw [if_neg (by omega)]
  rw [if_neg (by omega)]
  split
  · rename_i hr
    simp only [Nat.add_sub_cancel, List.take_length]
  · rename_i c r hr
    simp only [Nat.add_sub_cancel, List.drop_length] at hr
    simp at hr

theorem cobsDecodeBody_mid (b e : List ℕ) (hb : b.length < 254) (he : e ≠ []) :
    cobsDecodeBody ((b.length + 1) :: (b ++ e))
      = Option.map (fun t => b ++ 0 :: t) (cobsDecodeBody e) := by
  rw [cobsDecodeBody]
  rw [if_neg (by omega)]
  rw [if_neg (by rw [List.length_append]; omega)]
  split
  · rename_i hr
    simp only [Nat.add_sub_cancel, List.drop_left] at hr
    exact absurd hr he
  · rename_i c r hr
    have he2 : e = c :: r := by
      simpa only [Nat.add_sub_cancel, List.drop_left] using hr
    rw [if_neg (by omega)]
    rw [← he2]
    simp only [Nat.add_sub_cancel, List.take_left]

theorem cobsDecodeBody_255 (b e : List ℕ) (hb : b.length = 254) (he : e ≠ []) :
    cobsDecodeBody (255 :: (b ++ e)) = Option.map (fun t => b ++ t) (cobsDecodeBody e) := by
  have h254 : (255 - 1 : ℕ) = b.length := by omega
  rw [cobsDecodeBody]
  rw [if_neg (by omega)]
  rw [if_neg (by rw [List.length_append]; omega)]
  split
  · rename_i hr
    rw [h254, List.drop_left] at hr
    exact absurd hr he
  · rename_i c r hr
    have he2 : e = c :: r := by
      rw [h254, List.drop_left] at hr
      exact hr
    rw [if_pos rfl]
    rw [← he2]
    simp only [h254, List.take_left]

theorem cobs_body_roundtrip_aux :
    ∀ (n : ℕ) (xs : List ℕ), xs.length ≤ n →
      cobsDecodeBody (cobsEncodeBody xs) = some xs := by
  intro n
  induction n with
  | zero =>
    intro xs hx
    have hxs0 : xs = [] := List.length_eq_zero.mp (Nat.le_zero.mp hx)
    subst hxs0
    rw [cobsEncodeBody_case_end [] (by simp) (by simp), cobsDecodeBody_final]
    simp
  | succ n ih =>
    intro xs hx
    by_cases h : 254 ≤ (xs.takeWhile fun x => x != 0).length
    · have hlen : 254 ≤ xs.length := le_trans h ((List.takeWhile_sublist _).length_le)
      rw [cobsEncodeBody_case_full xs h]
      have hb : (xs.take 254).length = 254 := by rw [List.length_take]; omega
      have he : cobsEncodeBody (xs.drop 254) ≠ [] := cobsEncodeBody_ne_nil _
      rw [cobsDecodeBody_255 _ _ hb he]
      rw [ih (xs.drop 254) (by rw [List.length_drop]; omega)]
      simp [List.take_append_drop]
    · cases hdw : xs.dropWhile (fun x => x != 0) with
      | nil =>
        have hxs : xs.takeWhile (fun x => x != 0) = xs := by
          conv_rhs => rw [← List.takeWhile_append_dropWhile (p := fun x => x != 0) (l := xs)]
          rw [hdw, List.append_nil]
        rw [cobsEncodeBody_case_end xs h hdw, cobsDecodeBody_final, hxs]
      | cons c r =>
        have hc : c = 0 := by
          have hhead := dropWhile_head_not (fun x => x != 0) xs c r hdw
          simpa using hhead
        rw [cobsEncodeBody_case_zero xs h c r hdw]
        have hblen : (xs.takeWhile fun x => x != 0).length < 254 := by omega
        have he : cobsEncodeBody r ≠ [] := cobsEncodeBody_ne_nil r
        rw [cobsDecodeBody_mid _ _ hblen he]
        have hrlen : r.length ≤ n := by
          have h2 := congrArg List.length
            (List.takeWhile_append_dropWhile (p := fun x => x != 0) (l := xs))
          rw [hdw] at h2
          simp only [List.length_append, List.length_cons] at h2
          omega
        rw [ih r hrlen]
        have hxs : (xs.takeWhile fun x => x != 0) ++ 0 :: r = xs := by
          conv_rhs => rw [← List.takeWhile_append_dropWhile (p := fun x => x != 0) (l := xs)]
          rw [hdw, hc]
        simp [hxs]

/-- C1: round-trip of the frame codec — for every payload byte sequence
`p`, including the empty sequence and sequences containing the delimiter
byte's raw value `0`, decoding the encoding of `p` returns exactly `p`. -/
theorem cobs_roundtrip (p : List ℕ) : cobsDecode (cobsEncode p) = some p := by
  show cobsDecode (0 :: (cobsEncodeBody p ++ [0])) = some p
  simp only [cobsDecode]
  rw [List.getLast?_concat, if_pos rfl, List.dropLast_concat]
  exact cobs_body_roundtrip_aux p.length p le_rfl

/-- C6: every outbound command frame begins with the start marker `0xA3`
followed by the opcode byte, with opcode `0x10` for forward, `0x11` for
reverse, `0x12` for rotate (both revisions), `0x13` for turn, `0x14` for
driveRaw, `0x15` for stop, `0x16` for keepHeading and `0x20` for
resetOrientation. -/
theorem outbound_frame_format :
    (∀ s d : ℕ, (forward s d).frame.take 2 = [0xA3, 0x10])
  ∧ (∀ s d : ℕ, (reverse s d).frame.take 2 = [0xA3, 0x11])
  ∧ (∀ (s : ℕ) (a : ℤ), (rotate s a).frame.take 2 = [0xA3, 0x12])
  ∧ (∀ (s : ℕ) (a : ℤ), (rotateV2 s a).frame.take 2 = [0xA3, 0x12])
  ∧ (∀ (s : ℕ) (a : ℤ) (r : ℕ), (turn s a r).frame.take 2 = [0xA3, 0x13])
  ∧ (∀ l r : ℕ, (drive l r).frame.take 2 = [0xA3, 0x14])
  ∧ (∀ h : ℕ, (stop h).frame.take 2 = [0xA3, 0x15])
  ∧ (∀ (s : ℤ) (h d : ℕ), (keepHeading s h d).frame.take 2 = [0xA3, 0x16])
  ∧ (resetIMU.frame.take 2 = [0xA3, 0x20]) :=
  ⟨fun _ _ => rfl, fun _ _ => rfl, fun _ _ => rfl, fun _ _ => rfl,
    fun _ _ _ => rfl, fun _ _ => rfl, fun _ => rfl, fun _ _ _ => rfl, rfl⟩

/-- C5: `rotate(20, -90)` encodes opcode `0x12` with magnitude byte `90`
(in both revisions of the source, which differ only in the sign
convention of the direction byte), and for every speed `s` and nonzero
angle `a`, `rotate(s, a)` and `rotate(s, -a)` produce identical byte
sequences except for the direction byte, which is flipped between `0`
and `1`. -/
theorem rotate_direction_flip :
    ((rotate 20 (-90)).frame = [0xA3, 0x12, 20, 90, 1])
  ∧ ((rotateV2 20 (-90)).frame = [0xA3, 0x12, 20, 90, 0])
  ∧ (∀ (s : ℕ) (a : ℤ), a ≠ 0 →
      ((rotate s a).frame.take 4 = (rotate s (-a)).frame.take 4 ∧
        (rotate s a).frame.getD 4 0 + (rotate s (-a)).frame.getD 4 0 = 1))
  ∧ (∀ (s : ℕ) (a : ℤ), a ≠ 0 →
      ((rotateV2 s a).frame.take 4 = (rotateV2 s (-a)).frame.take 4 ∧
        (rotateV2 s a).frame.getD 4 0 + (rotateV2 s (-a)).frame.getD 4 0 = 1)) := by
  refine ⟨by decide, by decide, ?_, ?_⟩
  · intro s a ha
    refine ⟨by simp [rotate, numberToHex, Int.natAbs_neg], ?_⟩
    rcases lt_or_gt_of_ne ha with h | h
    · have h2 : ¬(-a < 0) := by omega
      simp [rotate, List.getD, h, h2, numberToHex]
    · have h1 : ¬(a < 0) := by omega
      have h2 : -a < 0 := by omega
      simp [rotate, List.getD, h1, h2, numberToHex]
  · intro s a ha
    refine ⟨by simp [rotateV2, numberToHex, Int.natAbs_neg], ?_⟩
    rcases lt_or_gt_of_ne ha with h | h
    · have h2 : ¬(-a < 0) := by omega
      simp [rotateV2, List.getD, h, h2, numberToHex]
    · have h1 : ¬(a < 0) := by omega
      have h2 : -a < 0 := by omega
      simp [rotateV2, List.getD, h1, h2, numberToHex]

theorem rotate_direction_flip_witness :
    (rotate 20 90).frame.take 4 = (rotate 20 (-90)).frame.take 4 ∧
      (rotate 20 90).frame.getD 4 0 + (rotate 20 (-90)).frame.getD 4 0 = 1 :=
  rotate_direction_flip.2.2.1 20 90 (by decide)

/-- C2 counterexample: the claim says every distance/angle-bearing command
called with a zero argument resolves immediately upon successful write, but
`rotate(20, 0)` returns a promise that waits for a `targetReached` event
and is still unresolved when no event has arrived. -/
theorem rotate_zero_still_waits :
    (rotate 20 0).completion = Completion.waitTarget ∧
      resolvedAfter (rotate 20 0).completion [] = false :=
  ⟨rfl, rfl⟩

/-- C2 (amended): `forward`, `reverse` and `keepHeading` with a zero
distance return no pending handle (the returned `undefined` awaits
nothing), and with a nonzero distance return a handle that resolves
exactly when the next `targetReached` event arrives; `rotate`, however,
always returns a handle waiting for `targetReached`, even for angle `0`. -/
theorem command_completion_amended :
    (∀ s d : ℕ, d ≠ 0 → (forward s d).completion = Completion.waitTarget)
  ∧ (∀ s : ℕ, (forward s 0).completion = Completion.noHandle)
  ∧ (∀ s d : ℕ, d ≠ 0 → (reverse s d).completion = Completion.waitTarget)
  ∧ (∀ s : ℕ, (reverse s 0).completion = Completion.noHandle)
  ∧ (∀ (s : ℤ) (h d : ℕ), d ≠ 0 → (keepHeading s h d).completion = Completion.waitTarget)
  ∧ (∀ (s : ℤ) (h : ℕ), (keepHeading s h 0).completion = Completion.noHandle)
  ∧ (∀ (s : ℕ) (a : ℤ), (rotate s a).completion = Completion.waitTarget)
  ∧ (∀ evs : List ParserEvent,
      resolvedAfter Completion.waitTarget evs = true ↔ ParserEvent.targetReached ∈ evs)
  ∧ (∀ evs : List ParserEvent, resolvedAfter Completion.noHandle evs = true) := by
  refine ⟨?_, fun s => rfl, ?_, fun s => rfl, ?_, fun s h => rfl, fun s a => rfl, ?_, fun evs => rfl⟩
  · intro s d hd; simp [forward, hd]
  · intro s d hd; simp [reverse, hd]
  · intro s h d hd; simp [keepHeading, hd]
  · intro evs
    simp [resolvedAfter, List.any_eq_true]

theorem command_completion_amended_witness :
    (forward 20 100).completion = Completion.waitTarget :=
  command_completion_amended.1 20 100 (by decide)

/-- C9: `stop(hard)` writes the frame `[0xA3, 0x15, hex(hard)]`
immediately, and its promise resolves after a fixed `setTimeout` delay —
`0` ms when `hard` is nonzero, the `1000` ms settling delay when `hard`
is `0` — and its resolution never depends on parser notifications. -/
theorem stop_fixed_delay :
    (∀ h : ℕ, (stop h).frame = [0xA3, 0x15, numberToHex h])
  ∧ ((stop 0).completion = Completion.timer 1000)
  ∧ (∀ h : ℕ, h ≠ 0 → (stop h).completion = Completion.timer 0)
  ∧ (∀ (h : ℕ) (evs : List ParserEvent), resolvedAfter (stop h).completion evs = true) := by
  refine ⟨fun h => rfl, rfl, ?_, fun h evs => rfl⟩
  intro h hh
  simp [stop, hh]

theorem stop_fixed_delay_witness :
    (stop 1).completion = Completion.timer 0 :=
  stop_fixed_delay.2.2.1 1 (by decide)

/-- C4: for every 6-byte odometry payload, the decoder returns
`leftTicks = leftDeltaTicks * (-1 if leftDir = 0, else leftDir)` and the
same rule for `rightTicks`; in particular `[1, 10, 0, 5, msb, lsb]`
decodes to `leftTicks = 10` and `rightTicks = -5`. -/
theorem odometry_tick_signs :
    (∀ ld dl rd dr m l : ℕ,
        (odometry ld dl rd dr m l).leftTicks
            = (dl : ℤ) * (if ld = 0 then -1 else (ld : ℤ)) ∧
        (odometry ld dl rd dr m l).rightTicks
            = (dr : ℤ) * (if rd = 0 then -1 else (rd : ℤ)))
  ∧ (∀ m l : ℕ,
      (odometry 1 10 0 5 m l).leftTicks = 10 ∧
      (odometry 1 10 0 5 m l).rightTicks = -5) := by
  refine ⟨fun ld dl rd dr m l => ⟨rfl, rfl⟩, fun m l => ⟨?_, ?_⟩⟩
  · simp [odometry, dirValue]
  · simp [odometry, dirValue]

/-- C10: for every odometry payload whose direction byte is neither `0`
nor `1`, the decoded tick value is the delta multiplied by the raw
direction byte itself (`data[i] || -1` keeps any nonzero byte as the
factor); a direction byte of `2` with delta `10` yields `20`. -/
theorem odometry_direction_multiplier :
    (∀ ld dl rd dr m l : ℕ, ld ≠ 0 → ld ≠ 1 →
        (odometry ld dl rd dr m l).leftTicks = (dl : ℤ) * (ld : ℤ))
  ∧ (∀ ld dl rd dr m l : ℕ, rd ≠ 0 → rd ≠ 1 →
        (odometry ld dl rd dr m l).rightTicks = (dr : ℤ) * (rd : ℤ))
  ∧ ((odometry 2 10 1 7 0 0).leftTicks = 20) := by
  refine ⟨?_, ?_, by simp [odometry, dirValue]⟩
  · intro ld dl rd dr m l h0 h1; simp [odometry, dirValue, h0]
  · intro ld dl rd dr m l h0 h1; simp [odometry, dirValue, h0]

theorem odometry_direction_multiplier_witness :
    (odometry 2 10 3 7 0 0).leftTicks = (10 : ℤ) * 2 :=
  odometry_direction_multiplier.1 2 10 3 7 0 0 (by decide) (by decide)

/-- C3: the decoded heading is the base-2 reinterpretation of the
concatenation of the two heading bytes' binary digit strings, divided by
`100`; and at the byte pair `(1, 1)` this differs from the straightforward
big-endian 16-bit combine `(msb * 256 + lsb) / 100` (the concatenation of
the unpadded digit strings gives `0b11 = 3`, not `257`). -/
theorem odometry_heading_digit_concat :
    (∀ ld dl rd dr m l : ℕ,
        (odometry ld dl rd dr m l).heading
          = (parseBinaryDigits (parseDecToBinary m ++ parseDecToBinary l) : ℚ) / 100)
  ∧ ((odometry 0 0 0 0 1 1).heading ≠ ((1 * 256 + 1 : ℚ)) / 100) := by
  refine ⟨fun ld dl rd dr m l => rfl, ?_⟩
  have hd : Nat.digits 2 1 = [1] := by
    rw [Nat.digits_def' (by norm_num : (1 : ℕ) < 2) (by norm_num : 0 < 1)]
    norm_num
  have h : (odometry 0 0 0 0 1 1).heading = 3 / 100 := by
    simp [odometry, parseDecToBinary, parseBinaryDigits, hd, Nat.ofDigits]
  rw [h]
  norm_num

/-- C7: per pending command exactly one `targetReached` listener is
attached (`issue` grows the listener list by exactly one); when the event
fires all listeners are detached at once (the list is empty afterwards)
and each of them resolves its promise then; and no handle is ever resolved
twice (the resolution log stays duplicate-free for every sequence of
operations), so repeated command calls never accumulate stale listeners. -/
theorem targetReached_listener_lifecycle :
    (∀ ops : List Op, (runOps initCorr ops).resolved.Nodup)
  ∧ (∀ ops : List Op, (runOps initCorr (ops ++ [Op.fire])).listeners = [])
  ∧ (∀ ops : List Op, (runOps initCorr (ops ++ [Op.issue])).listeners.length
        = (runOps initCorr ops).listeners.length + 1)
  ∧ (∀ ops : List Op, (runOps initCorr (ops ++ [Op.fire])).resolved
        = (runOps initCorr ops).resolved ++ (runOps initCorr ops).listeners) := by
  have hinv : ∀ ops : List Op, CorrInv (runOps initCorr ops) := fun ops =>
    corrInv_runOps ops initCorr ⟨List.nodup_nil, List.nodup_nil,
      by intro i hi; simp [initCorr] at hi, by intro i hi; simp [initCorr] at hi,
      by intro i hi; simp [initCorr] at hi⟩
  refine ⟨fun ops => (hinv ops).2.1, fun ops => ?_, fun ops => ?_, fun ops => ?_⟩
  · rw [runOps_append]; rfl
  · rw [runOps_append]; simp [runOps, stepOp]
  · rw [runOps_append]; rfl

/-- C8 (code bug): calling `init()` while a port is already active does
schedule a rejection, but — the guard lacking an early return — the
function still overwrites `port` and `parser` with fresh instances, so the
existing connection state is NOT left unchanged as the claim requires. -/
theorem init_rejects_but_reinitializes :
    (init ⟨some 0, some 0⟩ 1 1).1 = InitResult.rejected ∧
    (init ⟨some 0, some 0⟩ 1 1).2 = ⟨some 1, some 1⟩ ∧
    (init ⟨some 0, some 0⟩ 1 1).2 ≠ ⟨some 0, some 0⟩ := by
  refine ⟨rfl, rfl, ?_⟩
  decide

end Woz
